import Mathlib

/-!
Shallow embedding of the two command-line tools `src/tools/audit_fill.py`
and `src/tools/audit_qna.py`: a question/answer JSON store with a
dedupe-and-fill tool and a report tool.  Python dicts holding the three
fields `question`, `answer`, `optional` are modelled by records with
`Option` fields (a missing key is `none`); the mutable `seen` dict and
`out` list of `dedupe`, which alias the same objects, are modelled by a
single association list from normalization key to record, in output order.
-/

namespace Audit

/-- Python's whitespace test (`str.isspace`), as used by `str.strip()` and
`str.split()`, modelled by `Char.isWhitespace`. -/
def pyWs (c : Char) : Bool := c.isWhitespace

/-- Python `str.strip()`: remove leading and trailing whitespace
(`audit_fill.py` line 24, `q = it.get('question','').strip()`). -/
def pyStrip (s : String) : String :=
  String.mk ((s.data.dropWhile pyWs).rdropWhile pyWs)

/-- Python `str.lower()`, modelled characterwise by `Char.toLower`. -/
def pyLower (s : String) : String := String.mk (s.data.map Char.toLower)

/-- Worker for `pySplit`: scan the characters, `cur` holding the current
word reversed; whitespace closes the word, empty pieces never arise. -/
def pySplitAux : List Char → List Char → List String
  | [], cur => if cur.isEmpty then [] else [String.mk cur.reverse]
  | c :: cs, cur =>
    if pyWs c then
      if cur.isEmpty then pySplitAux cs []
      else String.mk cur.reverse :: pySplitAux cs []
    else pySplitAux cs (c :: cur)

/-- Python `str.split()` with no argument: the maximal whitespace-free
words of the string, in order (runs of whitespace collapse, no empty
pieces). -/
def pySplit (s : String) : List String := pySplitAux s.data []

/-- Python `sep.join(parts)`. -/
def pyJoin (sep : String) : List String → String
  | [] => ""
  | [x] => x
  | x :: xs => x ++ sep ++ pyJoin sep xs

/-- `key = ' '.join(q.lower().split())` (`audit_fill.py` line 25): the
normalization key computed from the already-stripped question `q`. -/
def collapseKey (q : String) : String := pyJoin " " (pySplit (pyLower q))

/-- A raw record as loaded from the JSON array and consumed by `dedupe`:
each field may be absent (`it.get(...)` in Python returns the default
then). The data model restricts values to strings and booleans. -/
structure InputRecord where
  question : Option String
  answer : Option String
  optional : Option Bool
deriving DecidableEq, Repr

/-- A cleaned record as built by `dedupe` (`audit_fill.py` line 36): all
three keys present, question stripped. -/
structure Record where
  question : String
  answer : String
  optional : Bool
deriving DecidableEq, Repr

/-- A cleaned record viewed again as a raw record (a `dedupe` output dict
fed back into `dedupe`): every field is present. -/
def Record.toInput (r : Record) : InputRecord :=
  { question := some r.question, answer := some r.answer, optional := some r.optional }

/-- Python truthiness of `it.get('answer')`: `None` (missing key) and the
empty string are falsy. -/
def truthyAnswer : Option String → Bool
  | none => false
  | some s => s != ""

/-- The normalization key of a raw record: strip, then lowercase and
collapse whitespace (`audit_fill.py` lines 24-25). -/
def inputKey (it : InputRecord) : String := collapseKey (pyStrip (it.question.getD ""))

/-- The duplicate branch of the loop body of `dedupe` (`audit_fill.py`
lines 29-35): mutate, in place, the object stored under `key`: the kept
answer is replaced only when it is empty and the incoming one truthy
(`if not prev.get('answer') and it.get('answer')`), and `optional` is
or-ed (`prev.get('optional', False) or it.get('optional', False)`). -/
def mergeInto : List (String × Record) → String → InputRecord → List (String × Record)
  | [], _, _ => []
  | (k, r) :: rest, key, it =>
    if k = key then
      (k, { r with
            answer := if (r.answer == "") && truthyAnswer it.answer
                      then it.answer.getD "" else r.answer
            optional := r.optional || it.optional.getD false }) :: rest
    else
      (k, r) :: mergeInto rest key it

/-- One iteration of the `for it in items` loop of `dedupe`
(`audit_fill.py` lines 23-38) on the loop state: skip when the key of `it`
is empty (`if not key: continue`); merge into the first-seen object when
the key was seen (`if key in seen`); otherwise append a fresh object with
the defaults of `it.get` filled in. -/
def dedupeStep (acc : List (String × Record)) (it : InputRecord) : List (String × Record) :=
  if inputKey it = "" then acc
  else if (acc.map Prod.fst).contains (inputKey it) then mergeInto acc (inputKey it) it
  else acc ++ [(inputKey it, { question := pyStrip (it.question.getD "")
                               answer := it.answer.getD ""
                               optional := it.optional.getD false })]

/-- `dedupe(items)` (`audit_fill.py` lines 21-40): fold the loop body over
the input and return the `out` list. -/
def dedupe (items : List InputRecord) : List Record :=
  (items.foldl dedupeStep []).map Prod.snd

/-- The normalization key of a cleaned record (whose question is already
stripped). -/
def recKey (r : Record) : String := collapseKey r.question

/-- Spec-side definition ("the first occurrence's position of each
normalization key determines its position in the output"): keep each key
of a list at its first occurrence, dropping later repeats. -/
def firstSeen : List String → List String
  | [] => []
  | k :: ks => k :: (firstSeen ks).filter (fun x => x != k)

/-- Spec-side definition: the expected key sequence of the deduplicated
output, namely the nonempty normalization keys of the input in first-seen
order. -/
def specKeys (items : List InputRecord) : List String :=
  firstSeen ((items.map inputKey).filter (fun k => k != ""))

/-- Invariant of the `dedupe` loop state: the seen keys are pairwise
distinct, and every stored object has a nonempty key that is the
normalization key of its (already stripped) question. -/
def GoodAcc (acc : List (String × Record)) : Prop :=
  (acc.map Prod.fst).Nodup ∧
    ∀ p ∈ acc, p.1 ≠ "" ∧ collapseKey p.2.question = p.1 ∧ pyStrip p.2.question = p.2.question

/-- One record's update in `interactive_fill` (`audit_fill.py` lines
47-49): the operator's line is stripped; a non-empty result replaces the
answer (`if ans: it['answer'] = ans`), an empty one keeps it. -/
def fillStep (r : Record) (line : String) : Record :=
  if pyStrip line = "" then r else { r with answer := pyStrip line }

/-- `it['answer'] or '<vide>'` (`audit_fill.py` line 46): Python `or`
renders an empty current answer as the placeholder `<vide>`. -/
def shownAnswer (a : String) : String := if a = "" then "<vide>" else a

/-- The text shown for one record by `interactive_fill` (lines 45-47)
before the operator's line is read: question, current answer (placeholder
for empty), then the prompt. -/
def fillPrompt (r : Record) : List String :=
  ["\nQuestion: " ++ r.question,
   "Réponse actuelle: " ++ shownAnswer r.answer,
   "Nouvelle réponse (ENTER pour garder): "]

/-- `interactive_fill(items)` (`audit_fill.py` lines 43-50) run against a
finite stream of operator input lines, one line consumed per record in
order; `none` models `input()` hitting end of input before every record
was visited (the run aborts with an exception, nothing is returned).
Returns the updated records and the unconsumed input. -/
def interactive_fill : List Record → List String → Option (List Record × List String)
  | [], ins => some ([], ins)
  | _ :: _, [] => none
  | r :: rest, line :: ins =>
    match interactive_fill rest ins with
    | none => none
    | some (out, rem) => some (fillStep r line :: out, rem)

/-- Python's f-string rendering of a field fetched with `item.get(...)`
and no default (`audit_qna.py` lines 15-16): a missing field is `None`
and prints as the text `None`. -/
def pyShow : Option String → String
  | none => "None"
  | some s => s

/-- One block printed by `print_qna` (`audit_qna.py` lines 14-17):
`f"{i}. Question: {q}\n   Réponse: {a}\n"` with the final newline from
`print` itself. -/
def qnaLine (i : Nat) (item : InputRecord) : String :=
  toString i ++ ". Question: " ++ pyShow item.question
    ++ "\n   Réponse: " ++ pyShow item.answer ++ "\n"

/-- `print_qna(questions)` (`audit_qna.py` lines 14-17): the blocks
printed, numbered from 1, in list order, with no deduplication. -/
def print_qna (questions : List InputRecord) : List String :=
  (questions.enumFrom 1).map (fun p => qnaLine p.1 p.2)

/-- A JSON value, in the generality the two tools exchange with
`json.load`/`json.dump`: null, booleans, (integer) numbers, strings,
arrays and objects with ordered fields. -/
inductive Json where
  | null : Json
  | bool : Bool → Json
  | num : Int → Json
  | str : String → Json
  | arr : List Json → Json
  | obj : List (String × Json) → Json

/-- Whether a JSON value is an array. -/
def Json.isArr : Json → Bool
  | .arr _ => true
  | _ => false

/-- A hexadecimal digit. -/
def hexDigit (n : Nat) : Char :=
  if n < 10 then Char.ofNat (48 + n) else Char.ofNat (87 + n)

/-- Four lowercase hexadecimal digits, as in a JSON `\uXXXX` escape. -/
def hex4 (n : Nat) : String :=
  String.mk [hexDigit (n / 4096 % 16), hexDigit (n / 256 % 16),
             hexDigit (n / 16 % 16), hexDigit (n % 16)]

/-- How Python's `json.dump` with `ensure_ascii=False` writes one string
character: quote, backslash and control characters are escaped, every
other character — non-ASCII included — is written literally. -/
def jsonEscapeChar (c : Char) : String :=
  if c = '"' then "\\\""
  else if c = '\\' then "\\\\"
  else if c = '\n' then "\\n"
  else if c = '\t' then "\\t"
  else if c = '\r' then "\\r"
  else if c = '\x08' then "\\b"
  else if c = '\x0c' then "\\f"
  else if c.toNat < 32 then "\\u" ++ hex4 c.toNat
  else String.singleton c

/-- A JSON string literal for `s`. -/
def jsonQuote (s : String) : String :=
  "\"" ++ String.join (s.data.map jsonEscapeChar) ++ "\""

/-- The indentation of nesting level `lvl` at 2 spaces per level. -/
def pad (lvl : Nat) : String := String.mk (List.replicate (2 * lvl) ' ')

mutual

/-- Python `json.dump(v, f, ensure_ascii=False, indent=2)`
(`audit_fill.py` line 18): the exact text written for `v` at nesting
level `lvl`. -/
def dumpJson : Nat → Json → String
  | _, .null => "null"
  | _, .bool b => if b then "true" else "false"
  | _, .num n => toString n
  | _, .str s => jsonQuote s
  | _, .arr [] => "[]"
  | lvl, .arr (x :: xs) =>
    "[\n" ++ pyJoin ",\n" (dumpElems (lvl + 1) (x :: xs)) ++ "\n" ++ pad lvl ++ "]"
  | _, .obj [] => "\x7b\x7d"
  | lvl, .obj (f :: fs) =>
    "\x7b\n" ++ pyJoin ",\n" (dumpFields (lvl + 1) (f :: fs)) ++ "\n" ++ pad lvl ++ "\x7d"

/-- The serialized elements of an array, each on its own indented line. -/
def dumpElems : Nat → List Json → List String
  | _, [] => []
  | lvl, x :: xs => (pad lvl ++ dumpJson lvl x) :: dumpElems lvl xs

/-- The serialized fields of an object, each on its own indented line. -/
def dumpFields : Nat → List (String × Json) → List String
  | _, [] => []
  | lvl, (k, v) :: fs =>
    (pad lvl ++ jsonQuote k ++ ": " ++ dumpJson lvl v) :: dumpFields lvl fs

end

/-- One cleaned record as the JSON object `save` receives: its keys are
in the dict insertion order of `audit_fill.py` line 36 — `question`,
`answer`, `optional` — which no later assignment changes. -/
def recordToJson (r : Record) : Json :=
  Json.obj [("question", Json.str r.question), ("answer", Json.str r.answer),
            ("optional", Json.bool r.optional)]

/-- `save(data)` (`audit_fill.py` lines 16-18): the text that
`json.dump(data, f, ensure_ascii=False, indent=2)` writes for the cleaned
list. -/
def save (data : List Record) : String :=
  dumpJson 0 (Json.arr (data.map recordToJson))

/-- Spec-side definition of one serialized Record: an object with keys
`question`, `answer`, `optional` in that order at 2-space indentation,
values escaped only as JSON requires. -/
def specRecordBlock (r : Record) : String :=
  "  \x7b\n    \"question\": " ++ jsonQuote r.question
    ++ ",\n    \"answer\": " ++ jsonQuote r.answer
    ++ ",\n    \"optional\": " ++ (if r.optional then "true" else "false")
    ++ "\n  \x7d"

/-- Spec-side definition of `save`: a JSON array of the records' objects
with 2-space indentation. -/
def specSave : List Record → String
  | [] => "[]"
  | rs => "[\n" ++ pyJoin ",\n" (rs.map specRecordBlock) ++ "\n]"

/-- A file system, as path-to-content. -/
def FileSys := String → Option String

/-- The data file's (fixed) path. -/
def DATA_PATH : String := "audit1_questions.json"

/-- The backup file's path: the data path with the `.bak` suffix. -/
def BACKUP_PATH : String := DATA_PATH ++ ".bak"

/-- Opening a file in mode `'w'` and writing `content`
(`audit_fill.py` line 17): the previous content of the target is
discarded entirely, other paths are untouched. -/
def writeFile (fs : FileSys) (path content : String) : FileSys :=
  fun p => if p = path then some content else fs p

/-- Characters JSON treats as insignificant whitespace. -/
def jsonWs (c : Char) : Bool := c = ' ' || c = '\t' || c = '\n' || c = '\r'

/-- The body of a JSON string after the opening quote: the decoded text
and the remainder past the closing quote. Standard single-character
escapes are handled; an unterminated string or unknown escape fails. -/
def parseStringBody : List Char → Option (String × List Char)
  | [] => none
  | '"' :: rest => some ("", rest)
  | '\\' :: c :: rest =>
    match (match c with
           | '"' => some '"'
           | '\\' => some '\\'
           | '/' => some '/'
           | 'n' => some '\n'
           | 't' => some '\t'
           | 'r' => some '\r'
           | _ => none : Option Char) with
    | none => none
    | some d =>
      match parseStringBody rest with
      | none => none
      | some (s, rem) => some (String.singleton d ++ s, rem)
  | c :: rest =>
    match parseStringBody rest with
    | none => none
    | some (s, rem) => some (String.singleton c ++ s, rem)

/-- The maximal run of leading decimal digits and the remainder. -/
def takeDigits : List Char → List Char × List Char
  | [] => ([], [])
  | c :: cs =>
    if c.isDigit then
      let p := takeDigits cs
      (c :: p.1, p.2)
    else ([], c :: cs)

/-- The number denoted by a digit run. -/
def digitsToNat (ds : List Char) : Nat :=
  ds.foldl (fun n c => 10 * n + (c.toNat - 48)) 0

/-- A JSON number at the head of the input (this model covers the
integers, the only numbers the data file's schema uses). -/
def parseNum (cs : List Char) : Option (Json × List Char) :=
  match cs with
  | '-' :: rest =>
    match takeDigits rest with
    | ([], _) => none
    | (ds, rem) => some (Json.num (-(digitsToNat ds : Int)), rem)
  | _ =>
    match takeDigits cs with
    | ([], _) => none
    | (ds, rem) => some (Json.num (digitsToNat ds), rem)

mutual

/-- One JSON value at the head of the input, leading whitespace allowed;
`fuel` bounds the recursion depth and is chosen ample by the caller. -/
def parseValue : Nat → List Char → Option (Json × List Char)
  | 0, _ => none
  | fuel + 1, cs =>
    match cs.dropWhile jsonWs with
    | 'n' :: 'u' :: 'l' :: 'l' :: rest => some (Json.null, rest)
    | 't' :: 'r' :: 'u' :: 'e' :: rest => some (Json.bool true, rest)
    | 'f' :: 'a' :: 'l' :: 's' :: 'e' :: rest => some (Json.bool false, rest)
    | '"' :: rest =>
      match parseStringBody rest with
      | none => none
      | some (s, rem) => some (Json.str s, rem)
    | '[' :: rest =>
      match rest.dropWhile jsonWs with
      | ']' :: rem => some (Json.arr [], rem)
      | _ => parseItems fuel rest []
    | '\x7b' :: rest =>
      match rest.dropWhile jsonWs with
      | '\x7d' :: rem => some (Json.obj [], rem)
      | _ => parseFields fuel rest []
    | other => parseNum other

/-- The elements of a non-empty JSON array after its `[`. -/
def parseItems : Nat → List Char → List Json → Option (Json × List Char)
  | 0, _, _ => none
  | fuel + 1, cs, acc =>
    match parseValue fuel cs with
    | none => none
    | some (v, rem) =>
      match rem.dropWhile jsonWs with
      | ',' :: rem₂ => parseItems fuel rem₂ (acc ++ [v])
      | ']' :: rem₂ => some (Json.arr (acc ++ [v]), rem₂)
      | _ => none

/-- The fields of a non-empty JSON object after its opening brace. -/
def parseFields : Nat → List Char → List (String × Json) → Option (Json × List Char)
  | 0, _, _ => none
  | fuel + 1, cs, acc =>
    match cs.dropWhile jsonWs with
    | '"' :: rest =>
      match parseStringBody rest with
      | none => none
      | some (k, rem) =>
        match rem.dropWhile jsonWs with
        | ':' :: rem₂ =>
          match parseValue fuel rem₂ with
          | none => none
          | some (v, rem₃) =>
            match rem₃.dropWhile jsonWs with
            | ',' :: rem₄ => parseFields fuel rem₄ (acc ++ [(k, v)])
            | '\x7d' :: rem₄ => some (Json.obj (acc ++ [(k, v)]), rem₄)
            | _ => none
        | _ => none
    | _ => none

end

/-- The failure `json.load` raises on malformed input
(`json.JSONDecodeError`). -/
inductive LoadError where
  | parseError : LoadError
deriving DecidableEq, Repr

/-- `json.load` on the file's text: one JSON value, with surrounding
whitespace allowed; anything else is a parse failure. The fuel
`length + 1` dominates the recursion depth, which consumes at least one
input character per unit spent. -/
def parseJson (content : String) : Option Json :=
  match parseValue (content.length + 1) content.data with
  | none => none
  | some (v, rem) => if (rem.dropWhile jsonWs).isEmpty then some v else none

/-- `load()` (`audit_fill.py` lines 11-13) and `load_questions`
(`audit_qna.py` lines 9-11): both return whatever `json.load` produced —
a parse failure propagates, and no check of any kind (array or otherwise)
is made on a successfully parsed value. -/
def load (content : String) : Except LoadError Json :=
  match parseJson content with
  | none => Except.error LoadError.parseError
  | some v => Except.ok v

/-- The value of `fields[k]` under Python dict semantics for duplicate
keys (the last occurrence wins). -/
def fieldOf (fields : List (String × Json)) (k : String) : Option Json :=
  match fields.reverse.find? (fun p => p.1 == k) with
  | none => none
  | some p => some p.2

/-- One parsed array element as the record the tools consume. A
non-object element, or a present field of a type the tools cannot process
(`.strip()` on a non-string, for instance), is `none`: the Python run
would die on an uncaught exception there. -/
def jsonToItem : Json → Option InputRecord
  | Json.obj fields =>
    (match fieldOf fields "question" with
     | none => some none
     | some (Json.str s) => some (some s)
     | some _ => none :
      Option (Option String)).bind (fun q =>
    (match fieldOf fields "answer" with
     | none => some none
     | some (Json.str s) => some (some s)
     | some _ => none :
      Option (Option String)).bind (fun a =>
    (match fieldOf fields "optional" with
     | none => some none
     | some (Json.bool b) => some (some b)
     | some _ => none :
      Option (Option Bool)).bind (fun o =>
    some ⟨q, a, o⟩)))
  | _ => none

/-- The parsed file as the list of records the tools iterate over. -/
def jsonToItems : Json → Option (List InputRecord)
  | Json.arr xs => xs.mapM jsonToItem
  | _ => none

/-- The observable outcome of one run of the fill tool's `main`
(`audit_fill.py` lines 53-67): the lines `main` itself prints (the
per-record prompt text of `interactive_fill` is modelled separately by
`fillPrompt`), whether the backup copy was made, the content written by
`save` (`none` when no save happened), and the process exit code. -/
structure FillOutcome where
  printed : List String
  backupMade : Bool
  saved : Option String
  exitCode : Nat
deriving DecidableEq, Repr

/-- The observable outcome of a report tool run. -/
structure QnaOutcome where
  printed : List String
  exitCode : Nat
deriving DecidableEq, Repr

/-- `main()` of the fill tool (`audit_fill.py` lines 53-67) as a function
of the file system, the `--interactive` flag (`--dedupe-only` is accepted
but never consulted) and the operator input stream. A missing data file
prints the message and returns (exit 0, nothing else done); otherwise the
backup is copied, the file loaded, deduplicated, optionally filled, and
saved; an uncaught exception (parse failure, malformed items, or end of
operator input) exits 1 without saving. -/
def fill_main (fs : FileSys) (interactive : Bool) (ins : List String) : FillOutcome :=
  match fs DATA_PATH with
  | none =>
    { printed := ["Fichier de questions introuvable: " ++ DATA_PATH]
      backupMade := false
      saved := none
      exitCode := 0 }
  | some content =>
    match load content with
    | Except.error _ => { printed := [], backupMade := true, saved := none, exitCode := 1 }
    | Except.ok v =>
      match jsonToItems v with
      | none => { printed := [], backupMade := true, saved := none, exitCode := 1 }
      | some items =>
        let cleaned := dedupe items
        if interactive then
          match interactive_fill cleaned ins with
          | none => { printed := [], backupMade := true, saved := none, exitCode := 1 }
          | some (filled, _) =>
            { printed := ["Nettoyé et enregistré " ++ toString filled.length
                ++ " questions dans " ++ DATA_PATH ++ " (backup: " ++ BACKUP_PATH ++ ")"]
              backupMade := true
              saved := some (save filled)
              exitCode := 0 }
        else
          { printed := ["Nettoyé et enregistré " ++ toString cleaned.length
              ++ " questions dans " ++ DATA_PATH ++ " (backup: " ++ BACKUP_PATH ++ ")"]
            backupMade := true
            saved := some (save cleaned)
            exitCode := 0 }

/-- The report tool's `__main__` block (`audit_qna.py` lines 20-27): a
missing data file prints the message and exits with status 2
(`sys.exit(2)`); otherwise the file is loaded and printed — re-serialized
JSON with `--json`/`-j`, else the numbered transcript; a parse failure
propagates (exit 1). -/
def qna_main (fs : FileSys) (jsonFlag : Bool) : QnaOutcome :=
  match fs DATA_PATH with
  | none =>
    { printed := ["Fichier de questions introuvable: " ++ DATA_PATH], exitCode := 2 }
  | some content =>
    match load content with
    | Except.error _ => { printed := [], exitCode := 1 }
    | Except.ok v =>
      if jsonFlag then { printed := [dumpJson 0 v], exitCode := 0 }
      else
        match jsonToItems v with
        | none => { printed := [], exitCode := 1 }
        | some items => { printed := print_qna items, exitCode := 0 }

lemma dedupeStep_empty_key (acc : List (String × Record)) (it : InputRecord)
    (h : inputKey it = "") : dedupeStep acc it = acc := by
  unfold dedupeStep
  simp [h]

lemma dedupeStep_nil_of_ne (it : InputRecord) (h : inputKey it ≠ "") :
    dedupeStep [] it =
      [(inputKey it,
        ⟨pyStrip (it.question.getD ""), it.answer.getD "", it.optional.getD false⟩)] := by
  unfold dedupeStep
  simp [h]

lemma dedupeStep_singleton_hit (k : String) (r : Record) (it : InputRecord)
    (hne : k ≠ "") (h : inputKey it = k) :
    dedupeStep [(k, r)] it =
      [(k, { r with
             answer := if (r.answer == "") && truthyAnswer it.answer
                       then it.answer.getD "" else r.answer
             optional := r.optional || it.optional.getD false })] := by
  unfold dedupeStep
  rw [h, if_neg hne]
  simp [mergeInto]

/-- C1: two same-key records, one with a non-empty answer and
`optional = false`, the other with an empty answer and `optional = true`,
fold to one record carrying the non-empty answer and `optional = true`,
in either input order. -/
theorem dedupe_merge_pair (q₁ q₂ a : String)
    (hk : collapseKey (pyStrip q₁) = collapseKey (pyStrip q₂))
    (hne : collapseKey (pyStrip q₁) ≠ "")
    (ha : a ≠ "") :
    dedupe [⟨some q₁, some a, some false⟩, ⟨some q₂, some "", some true⟩]
      = [⟨pyStrip q₁, a, true⟩] ∧
    dedupe [⟨some q₂, some "", some true⟩, ⟨some q₁, some a, some false⟩]
      = [⟨pyStrip q₂, a, true⟩] := by
  have hne₂ : collapseKey (pyStrip q₂) ≠ "" := hk ▸ hne
  have h₁ : inputKey ⟨some q₁, some a, some false⟩ = collapseKey (pyStrip q₁) := rfl
  have h₂ : inputKey ⟨some q₂, some "", some true⟩ = collapseKey (pyStrip q₂) := rfl
  constructor
  · unfold dedupe
    simp only [List.foldl_cons, List.foldl_nil]
    rw [dedupeStep_nil_of_ne ⟨some q₁, some a, some false⟩ (h₁ ▸ hne), h₁,
      dedupeStep_singleton_hit _ _ ⟨some q₂, some "", some true⟩ hne (h₂.trans hk.symm)]
    simp [truthyAnswer]
  · unfold dedupe
    simp only [List.foldl_cons, List.foldl_nil]
    rw [dedupeStep_nil_of_ne ⟨some q₂, some "", some true⟩ (h₂ ▸ hne₂), h₂,
      dedupeStep_singleton_hit _ _ ⟨some q₁, some a, some false⟩ hne₂ (h₁.trans hk)]
    simp [truthyAnswer, ha]

/-- Witness for C1 at a concrete pair of records whose questions differ
in case and spacing. -/
theorem dedupe_merge_pair_witness :
    dedupe [⟨some "What color?", some "A", some false⟩,
            ⟨some "what   COLOR?", some "", some true⟩]
      = [⟨pyStrip "What color?", "A", true⟩] ∧
    dedupe [⟨some "what   COLOR?", some "", some true⟩,
            ⟨some "What color?", some "A", some false⟩]
      = [⟨pyStrip "what   COLOR?", "A", true⟩] :=
  dedupe_merge_pair "What color?" "what   COLOR?" "A"
    (by decide) (by decide) (by decide)

/-- C4: a record whose question normalizes to the empty key is dropped:
deleting it from the input leaves the output of `dedupe` unchanged, so it
is neither kept, nor merged into any record, nor counted. -/
theorem dedupe_drops_empty_key (l₁ l₂ : List InputRecord) (it : InputRecord)
    (h : inputKey it = "") :
    dedupe (l₁ ++ it :: l₂) = dedupe (l₁ ++ l₂) := by
  unfold dedupe
  rw [List.foldl_append, List.foldl_append, List.foldl_cons,
    dedupeStep_empty_key _ _ h]

/-- Witness for C4: a whitespace-only question and a missing question are
both dropped from a concrete input. -/
theorem dedupe_drops_empty_key_witness :
    dedupe [⟨some "Q", some "x", none⟩, ⟨some "   ", some "y", some true⟩]
      = dedupe [⟨some "Q", some "x", none⟩] := by
  have h := dedupe_drops_empty_key [⟨some "Q", some "x", none⟩] []
    ⟨some "   ", some "y", some true⟩ (by decide)
  simpa using h

lemma dropWhile_eq_self_of_head (p : Char → Bool) (l : List Char)
    (h : ∀ a ∈ l.head?, p a = false) : l.dropWhile p = l := by
  cases l with
  | nil => rfl
  | cons a as => simp_all [List.dropWhile_cons]

lemma stripList_dropWhile (l : List Char) :
    ((l.dropWhile pyWs).rdropWhile pyWs).dropWhile pyWs
      = (l.dropWhile pyWs).rdropWhile pyWs := by
  apply dropWhile_eq_self_of_head
  intro a ha
  obtain ⟨t, ht⟩ := List.rdropWhile_prefix pyWs (l.dropWhile pyWs)
  cases hx : (l.dropWhile pyWs).rdropWhile pyWs with
  | nil => rw [hx] at ha; simp at ha
  | cons b xs =>
    rw [hx] at ha
    simp only [List.head?_cons, Option.mem_def, Option.some.injEq] at ha
    rw [hx] at ht
    have hXne : l.dropWhile pyWs ≠ [] := by rw [← ht]; simp
    have h1 : (l.dropWhile pyWs).head? = some b := by rw [← ht]; simp
    have h2 : (l.dropWhile pyWs).head hXne = b := by
      rw [List.head?_eq_head hXne] at h1
      exact Option.some.inj h1
    have hh := List.head_dropWhile_not pyWs l hXne
    rw [h2] at hh
    exact ha ▸ hh

/-- Python `strip()` is idempotent. -/
lemma pyStrip_idem (s : String) : pyStrip (pyStrip s) = pyStrip s := by
  show String.mk ((((s.data.dropWhile pyWs).rdropWhile pyWs).dropWhile pyWs).rdropWhile pyWs)
    = String.mk ((s.data.dropWhile pyWs).rdropWhile pyWs)
  rw [stripList_dropWhile, List.rdropWhile_idempotent]

lemma mergeInto_pairs (acc : List (String × Record)) (key : String) (it : InputRecord) :
    (mergeInto acc key it).map (fun p => (p.1, p.2.question))
      = acc.map (fun p => (p.1, p.2.question)) := by
  induction acc with
  | nil => rfl
  | cons hd tl ih =>
    obtain ⟨k, r⟩ := hd
    by_cases h : k = key
    · simp [mergeInto, h]
    · simp [mergeInto, h, ih]

lemma mergeInto_fst (acc : List (String × Record)) (key : String) (it : InputRecord) :
    (mergeInto acc key it).map Prod.fst = acc.map Prod.fst := by
  have h := congrArg (List.map Prod.fst) (mergeInto_pairs acc key it)
  simpa [List.map_map, Function.comp_def] using h

lemma mergeInto_mem (acc : List (String × Record)) (key : String) (it : InputRecord)
    {p : String × Record} (hp : p ∈ mergeInto acc key it) :
    ∃ p' ∈ acc, p'.1 = p.1 ∧ p'.2.question = p.2.question := by
  have h := mergeInto_pairs acc key it
  have hmem : (p.1, p.2.question) ∈ acc.map (fun p => (p.1, p.2.question)) := by
    rw [← h]
    exact List.mem_map_of_mem _ hp
  obtain ⟨p', hp', he⟩ := List.mem_map.mp hmem
  have he' : (p'.1, p'.2.question) = (p.1, p.2.question) := he
  rw [Prod.mk.injEq] at he'
  exact ⟨p', hp', he'.1, he'.2⟩

lemma goodAcc_nil : GoodAcc [] := ⟨List.nodup_nil, by simp⟩

lemma goodAcc_step (acc : List (String × Record)) (it : InputRecord)
    (h : GoodAcc acc) : GoodAcc (dedupeStep acc it) := by
  unfold dedupeStep
  by_cases h0 : inputKey it = ""
  · simpa [h0] using h
  rw [if_neg h0]
  by_cases h1 : (acc.map Prod.fst).contains (inputKey it)
  · rw [if_pos h1]
    refine ⟨?_, ?_⟩
    · rw [mergeInto_fst]
      exact h.1
    · intro p hp
      obtain ⟨p', hp', e1, e2⟩ := mergeInto_mem acc (inputKey it) it hp
      have hgood := h.2 p' hp'
      rw [e1, e2] at hgood
      exact hgood
  · rw [if_neg h1]
    have hnot : inputKey it ∉ acc.map Prod.fst := by simpa using h1
    refine ⟨?_, ?_⟩
    · rw [List.map_append]
      simp [List.nodup_append, h.1, hnot]
    · intro p hp
      rcases List.mem_append.mp hp with hmem | hmem
      · exact h.2 p hmem
      · have hp' : p = (inputKey it,
            ⟨pyStrip (it.question.getD ""), it.answer.getD "", it.optional.getD false⟩) := by
          simpa using hmem
        subst hp'
        exact ⟨h0, rfl, pyStrip_idem _⟩

lemma goodAcc_foldl (l : List InputRecord) (acc : List (String × Record))
    (h : GoodAcc acc) : GoodAcc (l.foldl dedupeStep acc) := by
  induction l generalizing acc with
  | nil => exact h
  | cons it rest ih => exact ih _ (goodAcc_step acc it h)

lemma foldl_keys (l : List InputRecord) (acc : List (String × Record)) :
    (l.foldl dedupeStep acc).map Prod.fst
      = acc.map Prod.fst
        ++ (firstSeen ((l.map inputKey).filter (fun k => k != ""))).filter
             (fun x => !((acc.map Prod.fst).contains x)) := by
  induction l generalizing acc with
  | nil => simp [firstSeen]
  | cons it rest ih =>
    by_cases h0 : inputKey it = ""
    · rw [List.foldl_cons, dedupeStep_empty_key _ _ h0, ih]
      simp [h0]
    · have hcons : (((it :: rest).map inputKey).filter (fun k => k != ""))
          = inputKey it :: ((rest.map inputKey).filter (fun k => k != "")) := by
        simp [h0]
      by_cases h1 : (acc.map Prod.fst).contains (inputKey it)
      · have hstep : dedupeStep acc it = mergeInto acc (inputKey it) it := by
          unfold dedupeStep
          rw [if_neg h0, if_pos h1]
        rw [List.foldl_cons, hstep, ih, mergeInto_fst]
        congr 1
        rw [hcons]
        simp only [firstSeen]
        rw [List.filter_cons, if_neg (by rw [h1]; decide), List.filter_filter]
        apply List.filter_congr
        intro x _
        by_cases hc : (acc.map Prod.fst).contains x = true
        · simp only [hc, Bool.not_true, Bool.false_and]
        · have hx : x ∉ acc.map Prod.fst := by simpa using hc
          have hk : inputKey it ∈ acc.map Prod.fst := by simpa using h1
          have hne : x ≠ inputKey it := fun e => hx (e ▸ hk)
          have hc' : (acc.map Prod.fst).contains x = false := Bool.eq_false_iff.mpr hc
          simp [hc', hne]
      · have hstep : dedupeStep acc it
            = acc ++ [(inputKey it,
                ⟨pyStrip (it.question.getD ""), it.answer.getD "", it.optional.getD false⟩)] := by
          unfold dedupeStep
          rw [if_neg h0, if_neg h1]
        have h1' : (acc.map Prod.fst).contains (inputKey it) = false := Bool.eq_false_iff.mpr h1
        rw [List.foldl_cons, hstep, ih, hcons]
        simp only [firstSeen]
        rw [List.filter_cons, if_pos (by rw [h1']; decide), List.filter_filter,
          List.map_append, List.append_assoc]
        congr 1
        simp only [List.map_cons, List.map_nil, List.singleton_append]
        congr 1
        apply List.filter_congr
        intro x _
        by_cases hxk : x = inputKey it
        · subst hxk
          simp
        · by_cases hc : (acc.map Prod.fst).contains x = true
          · have hmem : x ∈ acc.map Prod.fst := by simpa using hc
            simp [List.mem_append, hmem, hxk]
          · have hmem : x ∉ acc.map Prod.fst := by simpa using hc
            simp [List.mem_append, hmem, hxk]

/-- C3: the keys of the deduplicated output are exactly the nonempty
normalization keys of the input in first-seen order, and they are pairwise
distinct. -/
theorem dedupe_keys_first_seen (l : List InputRecord) :
    (dedupe l).map recKey = specKeys l ∧ ((dedupe l).map recKey).Nodup := by
  have hg := goodAcc_foldl l [] goodAcc_nil
  have hout : (dedupe l).map recKey = (l.foldl dedupeStep []).map Prod.fst := by
    unfold dedupe
    rw [List.map_map]
    exact List.map_congr_left (fun p hp => (hg.2 p hp).2.1)
  constructor
  · rw [hout, foldl_keys]
    unfold specKeys
    simp
  · rw [hout]
    exact hg.1

lemma foldl_toInput_fresh (rs : List Record) (acc : List (String × Record))
    (hstrip : ∀ r ∈ rs, pyStrip r.question = r.question)
    (hne : ∀ r ∈ rs, recKey r ≠ "")
    (hnd : (acc.map Prod.fst ++ rs.map recKey).Nodup) :
    rs.foldl (fun a r => dedupeStep a (Record.toInput r)) acc
      = acc ++ rs.map (fun r => (recKey r, r)) := by
  induction rs generalizing acc with
  | nil => simp
  | cons r rest ih =>
    have hkey : inputKey (Record.toInput r) = recKey r := by
      unfold inputKey Record.toInput recKey
      simp [hstrip r (by simp)]
    have hnotin : recKey r ∉ acc.map Prod.fst := by
      intro hmem
      have hdisj := List.disjoint_of_nodup_append hnd
      exact hdisj hmem (by simp)
    have hcont : (acc.map Prod.fst).contains (recKey r) = false := by
      simpa using hnotin
    have hstep : dedupeStep acc (Record.toInput r) = acc ++ [(recKey r, r)] := by
      unfold dedupeStep
      rw [hkey, if_neg (hne r (by simp)), hcont]
      simp [Record.toInput, hstrip r (by simp)]
    rw [List.foldl_cons, hstep, ih]
    · simp
    · exact fun r' h => hstrip r' (by simp [h])
    · exact fun r' h => hne r' (by simp [h])
    · simpa using hnd

/-- C2: `dedupe` is idempotent: feeding its output (whose objects carry
all three keys) back through `dedupe` returns it unchanged. -/
theorem dedupe_idempotent (l : List InputRecord) :
    dedupe ((dedupe l).map Record.toInput) = dedupe l := by
  have hg := goodAcc_foldl l [] goodAcc_nil
  have hstrip : ∀ r ∈ (l.foldl dedupeStep []).map Prod.snd,
      pyStrip r.question = r.question := by
    intro r hr
    obtain ⟨p, hp, rfl⟩ := List.mem_map.mp hr
    exact (hg.2 p hp).2.2
  have hne : ∀ r ∈ (l.foldl dedupeStep []).map Prod.snd, recKey r ≠ "" := by
    intro r hr
    obtain ⟨p, hp, rfl⟩ := List.mem_map.mp hr
    have h := hg.2 p hp
    unfold recKey
    rw [h.2.1]
    exact h.1
  have hkeys : ((l.foldl dedupeStep []).map Prod.snd).map recKey
      = (l.foldl dedupeStep []).map Prod.fst := by
    rw [List.map_map]
    exact List.map_congr_left (fun p hp => (hg.2 p hp).2.1)
  have hnd : (([] : List (String × Record)).map Prod.fst
      ++ ((l.foldl dedupeStep []).map Prod.snd).map recKey).Nodup := by
    rw [hkeys]
    simpa using hg.1
  unfold dedupe
  rw [List.foldl_map, foldl_toInput_fresh _ [] hstrip hne hnd]
  simp [List.map_map, Function.comp_def]

lemma fillStep_question (r : Record) (line : String) :
    (fillStep r line).question = r.question := by
  unfold fillStep
  split <;> rfl

lemma fillStep_optional (r : Record) (line : String) :
    (fillStep r line).optional = r.optional := by
  unfold fillStep
  split <;> rfl

/-- C7: per record, an input line that is empty after trimming leaves the
answer untouched, a non-empty one replaces the answer by its trimmed form,
and an empty current answer is shown as the non-empty placeholder. -/
theorem fill_answer_rules (r : Record) (line : String) :
    interactive_fill [r] [line] = some ([fillStep r line], []) ∧
    (pyStrip line = "" → fillStep r line = r) ∧
    (pyStrip line ≠ "" → (fillStep r line).answer = pyStrip line) ∧
    (r.answer = "" → shownAnswer r.answer = "<vide>" ∧ ("<vide>" : String) ≠ "") := by
  refine ⟨rfl, ?_, ?_, ?_⟩
  · intro h
    simp [fillStep, h]
  · intro h
    simp [fillStep, h]
  · intro h
    rw [h]
    exact ⟨rfl, by decide⟩

/-- Witness for C7: a blank line keeps the answer, a non-blank line
replaces it trimmed, and the empty answer shows as `<vide>`. -/
theorem fill_answer_rules_witness :
    fillStep ⟨"Q", "old", false⟩ "   " = ⟨"Q", "old", false⟩ ∧
    (fillStep ⟨"Q", "old", false⟩ "  new answer ").answer = pyStrip "  new answer " ∧
    (shownAnswer "" = "<vide>" ∧ ("<vide>" : String) ≠ "") :=
  ⟨(fill_answer_rules ⟨"Q", "old", false⟩ "   ").2.1 (by decide),
   (fill_answer_rules ⟨"Q", "old", false⟩ "  new answer ").2.2.1 (by decide),
   (fill_answer_rules ⟨"Q", "", false⟩ "x").2.2.2 rfl⟩

/-- C10: a completed interactive fill pass only rewrites answers: the
output has the same length and order, and every record keeps its question
and optional flag. -/
theorem fill_frame (items : List Record) (ins : List String) (out : List Record)
    (rem : List String) (h : interactive_fill items ins = some (out, rem)) :
    out.length = items.length ∧
    out.map Record.question = items.map Record.question ∧
    out.map Record.optional = items.map Record.optional := by
  induction items generalizing ins out rem with
  | nil =>
    simp only [interactive_fill, Option.some.injEq, Prod.mk.injEq] at h
    rw [← h.1]
    exact ⟨rfl, rfl, rfl⟩
  | cons r rest ih =>
    cases ins with
    | nil => simp [interactive_fill] at h
    | cons line ins' =>
      simp only [interactive_fill] at h
      cases hrec : interactive_fill rest ins' with
      | none =>
        rw [hrec] at h
        simp at h
      | some p =>
        obtain ⟨o', rem'⟩ := p
        rw [hrec] at h
        simp only [Option.some.injEq, Prod.mk.injEq] at h
        obtain ⟨hl, hq, hopt⟩ := ih ins' o' rem' hrec
        rw [← h.1]
        simp [fillStep_question, fillStep_optional, hl, hq, hopt]

/-- Witness for C10 on a concrete two-record run: one blank and one
filling input line. -/
theorem fill_frame_witness :
    ([(⟨"Q", "a", true⟩ : Record), ⟨"R", "yes", false⟩]).length
        = ([(⟨"Q", "a", true⟩ : Record), ⟨"R", "", false⟩]).length ∧
    ([(⟨"Q", "a", true⟩ : Record), ⟨"R", "yes", false⟩]).map Record.question
        = ([(⟨"Q", "a", true⟩ : Record), ⟨"R", "", false⟩]).map Record.question ∧
    ([(⟨"Q", "a", true⟩ : Record), ⟨"R", "yes", false⟩]).map Record.optional
        = ([(⟨"Q", "a", true⟩ : Record), ⟨"R", "", false⟩]).map Record.optional :=
  fill_frame [⟨"Q", "a", true⟩, ⟨"R", "", false⟩] ["  ", " yes "]
    [⟨"Q", "a", true⟩, ⟨"R", "yes", false⟩] [] (by decide)

/-- Counterexample for C8: the report tool renders a record with a
missing answer differently from one with an empty answer: the missing
field comes out as the Python null marker `None`, not as the empty
string. -/
theorem print_qna_missing_counterexample :
    print_qna [⟨some "Q", none, none⟩] ≠ print_qna [⟨some "Q", some "", some false⟩] ∧
    print_qna [⟨some "Q", none, none⟩] = ["1. Question: Q\n   Réponse: None\n"] := by
  constructor
  · decide
  · rfl

/-- C8 as amended: `dedupe` does default a missing answer to `""` and a
missing optional flag to `false`, but the Reporter's human rendering shows
a missing answer as the `None` marker. -/
theorem missing_fields_defaults (q : String) (h : collapseKey (pyStrip q) ≠ "") :
    dedupe [⟨some q, none, none⟩] = [⟨pyStrip q, "", false⟩] ∧
    print_qna [⟨some "Q", none, none⟩] = ["1. Question: Q\n   Réponse: None\n"] := by
  constructor
  · unfold dedupe
    rw [List.foldl_cons, List.foldl_nil,
      dedupeStep_nil_of_ne _ (show inputKey ⟨some q, none, none⟩ ≠ "" from h)]
    rfl
  · rfl

/-- Witness for the amended C8 at a concrete question. -/
theorem missing_fields_defaults_witness :
    dedupe [⟨some " Q1 ", none, none⟩] = [⟨pyStrip " Q1 ", "", false⟩] ∧
    print_qna [⟨some "Q", none, none⟩] = ["1. Question: Q\n   Réponse: None\n"] :=
  missing_fields_defaults " Q1 " (by decide)

lemma dump_record_block (r : Record) :
    pad 1 ++ dumpJson 1 (recordToJson r) = specRecordBlock r := by
  apply String.ext
  simp only [dumpJson, dumpFields, recordToJson, specRecordBlock, pad, pyJoin,
    String.data_append, List.cons_append, List.nil_append, List.append_assoc,
    List.replicate, List.singleton_append]
  rfl

lemma dumpElems_spec (l : List Record) :
    dumpElems 1 (l.map recordToJson) = l.map specRecordBlock := by
  induction l with
  | nil => rfl
  | cons r rs ih => simp only [List.map_cons, dumpElems, ih, dump_record_block]

/-- C6: the text `save` writes is the spec's serialization — a JSON array
of objects with keys `question`, `answer`, `optional` in that order at
2-space indentation; the write replaces the target's content entirely;
and every printable character that needs no JSON escape (all non-ASCII
included) is written literally. -/
theorem save_formats (data : List Record) (fs : FileSys) :
    save data = specSave data ∧
    writeFile fs DATA_PATH (save data) DATA_PATH = some (save data) ∧
    (∀ c : Char, c ≠ '"' → c ≠ '\\' → 32 ≤ c.toNat →
      jsonEscapeChar c = String.singleton c) := by
  refine ⟨?_, rfl, ?_⟩
  · cases data with
    | nil => rfl
    | cons r rs =>
      show dumpJson 0 (Json.arr ((r :: rs).map recordToJson)) = _
      rw [List.map_cons]
      show "[\n" ++ pyJoin ",\n" (dumpElems 1 (recordToJson r :: rs.map recordToJson))
            ++ "\n" ++ pad 0 ++ "]"
        = "[\n" ++ pyJoin ",\n" ((r :: rs).map specRecordBlock) ++ "\n]"
      rw [← List.map_cons recordToJson, dumpElems_spec]
      apply String.ext
      simp [String.data_append, pad]
  · intro c h1 h2 h3
    have e : ∀ d : Char, d.toNat < 32 → c ≠ d := by
      intro d hd he
      rw [he] at h3
      omega
    unfold jsonEscapeChar
    rw [if_neg h1, if_neg h2, if_neg (e '\n' (by decide)), if_neg (e '\t' (by decide)),
      if_neg (e '\r' (by decide)), if_neg (e '\x08' (by decide)),
      if_neg (e '\x0c' (by decide)), if_neg (by omega)]

/-- Witness for C6 at a record with a non-ASCII question and at the
non-ASCII character itself. -/
theorem save_formats_witness :
    save [⟨"Qé", "", true⟩] = specSave [⟨"Qé", "", true⟩] ∧
    writeFile (fun _ => some "old") DATA_PATH (save [⟨"Qé", "", true⟩]) DATA_PATH
      = some (save [⟨"Qé", "", true⟩]) ∧
    jsonEscapeChar 'é' = String.singleton 'é' :=
  ⟨(save_formats [⟨"Qé", "", true⟩] (fun _ => some "old")).1,
   (save_formats [⟨"Qé", "", true⟩] (fun _ => some "old")).2.1,
   (save_formats [⟨"Qé", "", true⟩] (fun _ => some "old")).2.2 'é'
     (by decide) (by decide) (by decide)⟩

/-- Counterexample for C5: a file holding `{}` — valid JSON, not an
array — is loaded successfully and returned as-is; `load` does not fail
on it. -/
theorem load_nonarray_counterexample :
    load "\x7b\x7d" = Except.ok (Json.obj []) ∧ Json.isArr (Json.obj []) = false :=
  ⟨rfl, rfl⟩

/-- C5 as amended: `load` fails with the parse error exactly on content
that is not valid JSON; a successfully parsed value is returned as-is,
array or not. -/
theorem load_amended (content : String) :
    (parseJson content = none → load content = Except.error LoadError.parseError) ∧
    ∀ v, parseJson content = some v → load content = Except.ok v := by
  constructor
  · intro h
    unfold load
    rw [h]
  · intro v h
    unfold load
    rw [h]

/-- Witness for the amended C5: malformed content errors, a JSON array
loads. -/
theorem load_amended_witness :
    load "not json" = Except.error LoadError.parseError ∧
    load "[]" = Except.ok (Json.arr []) :=
  ⟨(load_amended "not json").1 rfl, (load_amended "[]").2 (Json.arr []) rfl⟩

/-- C9: on a missing data file the fill tool prints the message naming
the expected path and returns normally — exit code 0, no backup, no load,
no save — while the report tool prints the message and exits with the
dedicated non-zero status 2. -/
theorem missing_file_behaviour (fs : FileSys) (interactive jsonFlag : Bool)
    (ins : List String) (h : fs DATA_PATH = none) :
    fill_main fs interactive ins
      = ⟨["Fichier de questions introuvable: " ++ DATA_PATH], false, none, 0⟩ ∧
    qna_main fs jsonFlag
      = ⟨["Fichier de questions introuvable: " ++ DATA_PATH], 2⟩ ∧
    (2 : Nat) ≠ 0 := by
  refine ⟨?_, ?_, by decide⟩
  · unfold fill_main
    rw [h]
  · unfold qna_main
    rw [h]

/-- Witness for C9 on the empty file system. -/
theorem missing_file_behaviour_witness :
    fill_main (fun _ => none) true []
      = ⟨["Fichier de questions introuvable: " ++ DATA_PATH], false, none, 0⟩ ∧
    qna_main (fun _ => none) false
      = ⟨["Fichier de questions introuvable: " ++ DATA_PATH], 2⟩ ∧
    (2 : Nat) ≠ 0 :=
  missing_file_behaviour (fun _ => none) true false [] rfl

end Audit
